import Mathlib

/-!
Verification of the employee CRUD service (`src/app.js`).

The service is an Express application over a MongoDB store.  We give a
shallow embedding: JSON scalar values, the express-validator chains of the
create/update endpoints, the mongoose `Employee` model (schema casting and
required checks), an explicit store state, and one Lean function per HTTP
handler.  External library behaviour (express-validator coercion,
validator.js predicates, mongoose ObjectId casting, the `$regex` search) is
modelled at the level the handlers use it; each such model is documented at
its definition.
-/

/-- A scalar JSON value as it appears in a request-body field.  Request
bodies of this service are flat JSON objects with scalar fields, so
strings, numbers and null suffice; an absent field is `Option.none` at the
use site. -/
inductive JValue where
  | jstr (s : String)
  | jnum (n : Int)
  | jnull
deriving DecidableEq, Repr

/-- A request body for POST /employees and PUT /employees/:id: the seven
fields the handlers read from `req.body`, each possibly absent. -/
structure ReqBody where
  emp_name : Option JValue
  emp_email : Option JValue
  emp_salary : Option JValue
  experience : Option JValue
  dept_code : Option JValue
  joining_date : Option JValue
  secrete_code : Option JValue
deriving DecidableEq, Repr

/-- Digits of `n` in base 10, most significant first; the first argument is
recursion fuel, always called with fuel greater than the number. -/
def natDigitsCore : Nat → Nat → List Char → List Char
  | 0, _, acc => acc
  | fuel + 1, n, acc =>
    let d := Char.ofNat (48 + n % 10)
    if n < 10 then d :: acc else natDigitsCore fuel (n / 10) (d :: acc)

/-- Decimal string of a natural number. -/
def natToStr (n : Nat) : String :=
  String.mk (natDigitsCore (n + 1) n [])

/-- Models JavaScript number-to-string conversion for integer values. -/
def intToStr : Int → String
  | .ofNat m => natToStr m
  | .negSucc m => String.mk ('-' :: (natToStr (m + 1)).toList)

/-- express-validator coerces a field value to a string before running a
validator.js validator: `undefined` and `null` become `""`, numbers their
decimal form, strings stay themselves. -/
def coerceStr : Option JValue → String
  | none => ""
  | some .jnull => ""
  | some (.jstr s) => s
  | some (.jnum n) => intToStr n

/-- Split a character list on a separator character; mirrors
`String.prototype.split` on a one-character separator. -/
def splitOnChar (sep : Char) : List Char → List (List Char)
  | [] => [[]]
  | c :: cs =>
    if c = sep then [] :: splitOnChar sep cs
    else
      match splitOnChar sep cs with
      | [] => [[c]]
      | g :: gs => (c :: g) :: gs

/-- `isString()` of express-validator: the raw value is a JSON string. -/
def isStringV (v : Option JValue) : Bool :=
  match v with
  | some (.jstr _) => true
  | _ => false

/-- `notEmpty()` of express-validator: the coerced string is non-empty. -/
def notEmptyV (v : Option JValue) : Bool :=
  !(coerceStr v).toList.isEmpty

/-- Modelled from validator.js `isEmail` (default options): one `@` sign,
a non-empty local part of at most 64 characters, and a domain of at least
two non-empty labels of alphanumeric-or-hyphen characters whose last label
is alphabetic of length at least two. -/
def isEmailStr (s : String) : Bool :=
  match splitOnChar '@' s.toList with
  | [lp, dom] =>
    let labels := splitOnChar '.' dom
    decide (0 < lp.length) && decide (lp.length ≤ 64) &&
    decide (2 ≤ labels.length) &&
    labels.all (fun l => decide (0 < l.length) &&
      l.all (fun c => c.isAlphanum || c = '-')) &&
    (labels.getLastD []).all Char.isAlpha &&
    decide (2 ≤ (labels.getLastD []).length)
  | _ => false

/-- `isEmail()` chain item: validator.js `isEmail` on the coerced value. -/
def isEmailV (v : Option JValue) : Bool :=
  isEmailStr (coerceStr v)

/-- Modelled from validator.js `isNumeric` (default options): an optional
sign, then digits with at most one decimal point and at least one digit
after the point when there is one. -/
def isNumericStr (s : String) : Bool :=
  let cs := s.toList
  let cs := match cs with
    | c :: rest => if c = '+' || c = '-' then rest else c :: rest
    | [] => []
  match splitOnChar '.' cs with
  | [ds] => !ds.isEmpty && ds.all Char.isDigit
  | [ip, fp] => ip.all Char.isDigit && !fp.isEmpty && fp.all Char.isDigit
  | _ => false

/-- `isNumeric()` chain item on the coerced value. -/
def isNumericV (v : Option JValue) : Bool :=
  isNumericStr (coerceStr v)

/-- Digit list to the natural number it denotes in base 10. -/
def digitsVal (ds : List Char) : Nat :=
  ds.foldl (fun acc c => acc * 10 + (c.toNat - 48)) 0

/-- Modelled from validator.js `isInt` with option min = 0: an optional
sign followed by one or more digits (leading zeroes allowed by default),
whose integer value is at least 0, i.e. a minus sign is only accepted on a
zero value. -/
def isIntMin0Str (s : String) : Bool :=
  let cs := s.toList
  let signDs := match cs with
    | c :: rest =>
      if c = '+' then (false, rest)
      else if c = '-' then (true, rest)
      else (false, c :: rest)
    | [] => (false, [])
  let neg := signDs.1
  let ds := signDs.2
  !ds.isEmpty && ds.all Char.isDigit && (!neg || digitsVal ds = 0)

/-- `isInt({ min: 0 })` chain item on the coerced value. -/
def isIntMin0V (v : Option JValue) : Bool :=
  isIntMin0Str (coerceStr v)

/-- Decimal digit value of a digit character. -/
def digitVal (c : Char) : Nat := c.toNat - 48

/-- Modelled from validator.js `isISO8601` (default options), restricted to
the calendar-date form the service exchanges: `YYYY-MM-DD` with a month in
01..12 and a day in 01..31. -/
def isISO8601Str (s : String) : Bool :=
  match s.toList with
  | [y1, y2, y3, y4, c1, m1, m2, c2, d1, d2] =>
    c1 = '-' && c2 = '-' &&
    [y1, y2, y3, y4, m1, m2, d1, d2].all Char.isDigit &&
    (let m := digitVal m1 * 10 + digitVal m2
     decide (1 ≤ m) && decide (m ≤ 12)) &&
    (let d := digitVal d1 * 10 + digitVal d2
     decide (1 ≤ d) && decide (d ≤ 31))
  | _ => false

/-- `isISO8601()` chain item on the coerced value. -/
def isISO8601V (v : Option JValue) : Bool :=
  isISO8601Str (coerceStr v)

/-- One entry of the `errors` array of a 400 validation response:
the field path and the human-readable message of the failed validator. -/
structure Violation where
  field : String
  msg : String
deriving DecidableEq, Repr

/-- Run one validation chain `body(field).v1.withMessage(m1).v2...`:
every validator of the chain runs on the field value (express-validator
does not bail inside a chain by default) and each failure contributes its
message, in chain order. -/
def checkChain (f : String) (v : Option JValue)
    (rules : List ((Option JValue → Bool) × String)) : List Violation :=
  rules.filterMap (fun r => if r.1 v then none else some ⟨f, r.2⟩)

/-- The validation rule array of POST /employees (app.js lines 34-43):
chains run in declaration order and `validationResult(req).array()`
concatenates their violations. -/
def postValidation (b : ReqBody) : List Violation :=
  checkChain "emp_name" b.emp_name
    [(isStringV, "Employee name must be a string"),
     (notEmptyV, "Employee name is required")]
  ++ checkChain "emp_email" b.emp_email
    [(isEmailV, "Invalid email format"),
     (notEmptyV, "Employee email is required")]
  ++ checkChain "emp_salary" b.emp_salary
    [(isNumericV, "Salary must be a number"),
     (notEmptyV, "Employee salary is required")]
  ++ checkChain "experience" b.experience
    [(isIntMin0V, "Experience must be a non-negative integer")]
  ++ checkChain "dept_code" b.dept_code
    [(isStringV, "Department code must be a string"),
     (notEmptyV, "Department code is required")]
  ++ checkChain "joining_date" b.joining_date
    [(isISO8601V, "Joining date must be a valid date in ISO8601 format")]
  ++ checkChain "secrete_code" b.secrete_code
    [(isStringV, "Secret code must be a string"),
     (notEmptyV, "Secret code is required")]

/-- The validation rule array of PUT /employees/:id (app.js lines 95-101),
which the source duplicates verbatim from the POST rules. -/
def putValidation (b : ReqBody) : List Violation :=
  checkChain "emp_name" b.emp_name
    [(isStringV, "Employee name must be a string"),
     (notEmptyV, "Employee name is required")]
  ++ checkChain "emp_email" b.emp_email
    [(isEmailV, "Invalid email format"),
     (notEmptyV, "Employee email is required")]
  ++ checkChain "emp_salary" b.emp_salary
    [(isNumericV, "Salary must be a number"),
     (notEmptyV, "Employee salary is required")]
  ++ checkChain "experience" b.experience
    [(isIntMin0V, "Experience must be a non-negative integer")]
  ++ checkChain "dept_code" b.dept_code
    [(isStringV, "Department code must be a string"),
     (notEmptyV, "Department code is required")]
  ++ checkChain "joining_date" b.joining_date
    [(isISO8601V, "Joining date must be a valid date in ISO8601 format")]
  ++ checkChain "secrete_code" b.secrete_code
    [(isStringV, "Secret code must be a string"),
     (notEmptyV, "Secret code is required")]

/-- The seven validated fields, as an index type. -/
inductive FieldId where
  | emp_name | emp_email | emp_salary | experience
  | dept_code | joining_date | secrete_code
deriving DecidableEq, Repr

/-- The field path string of a field. -/
def FieldId.name : FieldId → String
  | .emp_name => "emp_name"
  | .emp_email => "emp_email"
  | .emp_salary => "emp_salary"
  | .experience => "experience"
  | .dept_code => "dept_code"
  | .joining_date => "joining_date"
  | .secrete_code => "secrete_code"

/-- Project a field value out of a request body. -/
def ReqBody.get (b : ReqBody) : FieldId → Option JValue
  | .emp_name => b.emp_name
  | .emp_email => b.emp_email
  | .emp_salary => b.emp_salary
  | .experience => b.experience
  | .dept_code => b.dept_code
  | .joining_date => b.joining_date
  | .secrete_code => b.secrete_code

/-- Replace one field of a request body. -/
def ReqBody.set (b : ReqBody) (f : FieldId) (v : Option JValue) : ReqBody :=
  match f with
  | .emp_name => { b with emp_name := v }
  | .emp_email => { b with emp_email := v }
  | .emp_salary => { b with emp_salary := v }
  | .experience => { b with experience := v }
  | .dept_code => { b with dept_code := v }
  | .joining_date => { b with joining_date := v }
  | .secrete_code => { b with secrete_code := v }

/-- The validation chain of each field, as declared in the rule array. -/
def chainRules : FieldId → List ((Option JValue → Bool) × String)
  | .emp_name =>
    [(isStringV, "Employee name must be a string"),
     (notEmptyV, "Employee name is required")]
  | .emp_email =>
    [(isEmailV, "Invalid email format"),
     (notEmptyV, "Employee email is required")]
  | .emp_salary =>
    [(isNumericV, "Salary must be a number"),
     (notEmptyV, "Employee salary is required")]
  | .experience =>
    [(isIntMin0V, "Experience must be a non-negative integer")]
  | .dept_code =>
    [(isStringV, "Department code must be a string"),
     (notEmptyV, "Department code is required")]
  | .joining_date =>
    [(isISO8601V, "Joining date must be a valid date in ISO8601 format")]
  | .secrete_code =>
    [(isStringV, "Secret code must be a string"),
     (notEmptyV, "Secret code is required")]

/-- All chains pass: the per-field conditions under which every validator
of the POST/PUT rule array succeeds. -/
def allFieldsValid (b : ReqBody) : Bool :=
  (isStringV b.emp_name && notEmptyV b.emp_name) &&
  (isEmailV b.emp_email && notEmptyV b.emp_email) &&
  (isNumericV b.emp_salary && notEmptyV b.emp_salary) &&
  isIntMin0V b.experience &&
  (isStringV b.dept_code && notEmptyV b.dept_code) &&
  isISO8601V b.joining_date &&
  (isStringV b.secrete_code && notEmptyV b.secrete_code)

/-- The fully valid example body of the specification: name "Alice Smith",
email "a@x.com", salary "50000", experience 3, dept "ENG",
joining date "2024-01-15", secret code "abc". -/
def exBody : ReqBody :=
  { emp_name := some (.jstr "Alice Smith")
    emp_email := some (.jstr "a@x.com")
    emp_salary := some (.jstr "50000")
    experience := some (.jnum 3)
    dept_code := some (.jstr "ENG")
    joining_date := some (.jstr "2024-01-15")
    secrete_code := some (.jstr "abc") }


/-- A persisted Employee document.  The mongoose schema (app.js lines
21-29) declares every one of the seven fields with type `String` and
`required: true`, so a stored document carries string values throughout,
plus the store-assigned `_id`. -/
structure StoredEmployee where
  id : String
  emp_name : String
  emp_email : String
  emp_salary : String
  experience : String
  dept_code : String
  joining_date : String
  secrete_code : String
deriving DecidableEq, Repr

/-- Mongoose cast-and-required check for one `String`-typed schema path:
strings pass through, numbers are cast to their decimal string, `null` and
absent values fail `required`, and the empty string fails the `String`
required validator. `none` means the document fails validation at save. -/
def castField : Option JValue → Option String
  | some (.jstr s) =>
    match s.toList with
    | [] => none
    | _ :: _ => some s
  | some (.jnum n) => some (intToStr n)
  | some .jnull => none
  | none => none

/-- Build the document `new Employee({...})` from the request body (app.js
lines 52-60 and 114-120), under the schema casts; `none` when mongoose
validation would reject the save. -/
def castEmployee (id : String) (b : ReqBody) : Option StoredEmployee :=
  match castField b.emp_name, castField b.emp_email, castField b.emp_salary,
        castField b.experience, castField b.dept_code,
        castField b.joining_date, castField b.secrete_code with
  | some n, some em, some sal, some ex, some dc, some jd, some sc =>
    some ⟨id, n, em, sal, ex, dc, jd, sc⟩
  | _, _, _, _, _, _, _ => none

/-- The message of a mongoose document-validation error at save. -/
def requiredErrMsg : String := "Employee validation failed"

/-- Lower-case hexadecimal digit character. -/
def hexChar (d : Nat) : Char :=
  if d < 10 then Char.ofNat (48 + d) else Char.ofNat (87 + d)

/-- The store-assigned identifier for the `n`-th created document: a
24-character hexadecimal string, modelling a fresh mongoose ObjectId. -/
def genId (n : Nat) : String :=
  String.mk ((List.range 24).map (fun i => hexChar (n / 16 ^ (23 - i) % 16)))

/-- Hexadecimal digit in any case. -/
def isHexDigitChar (c : Char) : Bool :=
  c.isDigit || ('a' ≤ c && c ≤ 'f') || ('A' ≤ c && c ≤ 'F')

/-- Modelled from mongoose ObjectId casting: a route `:id` parameter is a
syntactically valid identifier when it is a 24-character hexadecimal
string; anything else makes the query throw a CastError. -/
def isValidObjectId (s : String) : Bool :=
  s.toList.length == 24 && s.toList.all isHexDigitChar

/-- The CastError message mongoose raises on a malformed `:id`. -/
def castErrMsg (id : String) : String :=
  "Cast to ObjectId failed for value " ++ id ++ " at path _id for model Employee"

/-- The state of the backing store: the persisted documents in insertion
order, a counter making fresh identifiers, and an injected fault — when
`failure` is set, every storage round trip rejects with that message
(modelling an unreachable or failing MongoDB). -/
structure Store where
  docs : List StoredEmployee
  nextId : Nat
  failure : Option String
deriving DecidableEq, Repr

/-- `Employee.find()` with no filter. -/
def dbFindAll (s : Store) : Except String (List StoredEmployee) :=
  match s.failure with
  | some m => .error m
  | none => .ok s.docs

/-- `Employee.findById(id)`: the id is cast client-side first (malformed
ids throw before any round trip), then the store is queried. -/
def dbFindById (s : Store) (id : String) : Except String (Option StoredEmployee) :=
  if !isValidObjectId id then .error (castErrMsg id)
  else
    match s.failure with
    | some m => .error m
    | none => .ok (s.docs.find? (fun d => d.id == id))

/-- `employee.save()` on a new document: document validation runs
client-side first, then the insert round trip; the store assigns the
fresh identifier and appends the document. -/
def dbSaveNew (s : Store) (b : ReqBody) : Except String (StoredEmployee × Store) :=
  match castEmployee (genId s.nextId) b with
  | none => .error requiredErrMsg
  | some e =>
    match s.failure with
    | some m => .error m
    | none =>
      .ok (e, { s with docs := s.docs ++ [e], nextId := s.nextId + 1 })

/-- `employee.save()` on a loaded document whose seven fields were
reassigned from the request body: validation first, then the write
replaces the document with that identifier. -/
def dbSaveExisting (s : Store) (old : StoredEmployee) (b : ReqBody) :
    Except String (StoredEmployee × Store) :=
  match castEmployee old.id b with
  | none => .error requiredErrMsg
  | some e =>
    match s.failure with
    | some m => .error m
    | none =>
      .ok (e, { s with docs := s.docs.map (fun d => if d.id == old.id then e else d) })

/-- `employee.deleteOne()`: remove the (first) document with this
document's identifier. -/
def dbDeleteDoc (s : Store) (e : StoredEmployee) : Except String Store :=
  match s.failure with
  | some m => .error m
  | none => .ok { s with docs := s.docs.eraseP (fun d => d.id == e.id) }

/-- Matches a pattern against a prefix of the subject.  Models the
ECMAScript regex fragment the theorems exercise: a sequence of literal
characters and the `.` wildcard, compared case-insensitively (the `i`
flag). -/
def patMatchesAt : List Char → List Char → Bool
  | [], _ => true
  | _ :: _, [] => false
  | pc :: pr, sc :: sr =>
    (pc == '.' || pc.toLower == sc.toLower) && patMatchesAt pr sr

/-- Modelled from `$regex: pat, $options: i` (app.js line 145): the
unanchored, case-insensitive regex test — the pattern matches starting at
some position of the subject. -/
def regexILike (pat subject : String) : Bool :=
  (List.range (subject.toList.length + 1)).any
    (fun i => patMatchesAt pat.toList (subject.toList.drop i))

/-- `Employee.find(emp_name: regex)` of the search endpoint. -/
def dbFindByNameRegex (s : Store) (pat : String) : Except String (List StoredEmployee) :=
  match s.failure with
  | some m => .error m
  | none => .ok (s.docs.filter (fun d => regexILike pat d.emp_name))

/-- The JSON body of a response: a violation array, one employee record,
an array of records, a message object, or the search catch branch's
error-keyed object. -/
inductive RespBody where
  | errors (errs : List Violation)
  | record (e : StoredEmployee)
  | records (es : List StoredEmployee)
  | message (m : String)
  | errorMsg (m : String)
deriving DecidableEq, Repr

/-- An HTTP response: status code and JSON body. -/
structure Response where
  status : Nat
  body : RespBody
deriving DecidableEq, Repr

/-- GET /employees (app.js lines 71-78). -/
def getAllEmployees (s : Store) : Response :=
  match dbFindAll s with
  | .ok es => ⟨200, .records es⟩
  | .error m => ⟨500, .message m⟩

/-- GET /employees/:id (app.js lines 81-89): 404 when the lookup comes
back empty, 500 with the error message when the query throws. -/
def getEmployeeById (id : String) (s : Store) : Response :=
  match dbFindById s id with
  | .ok none => ⟨404, .message "Employee not found"⟩
  | .ok (some e) => ⟨200, .record e⟩
  | .error m => ⟨500, .message m⟩

/-- POST /employees (app.js lines 33-68): validate, 400 with the violation
array on failure; otherwise build and save the document, 201 with the
saved record, 400 with the error message when the save throws. -/
def postEmployees (b : ReqBody) (s : Store) : Response × Store :=
  let errs := postValidation b
  if !errs.isEmpty then (⟨400, .errors errs⟩, s)
  else
    match dbSaveNew s b with
    | .ok es => (⟨201, .record es.1⟩, es.2)
    | .error m => (⟨400, .message m⟩, s)

/-- PUT /employees/:id (app.js lines 92-126): validate, 400 with the
violation array on failure; look up the document (a throw anywhere in the
try block — including a malformed id — lands in the catch, which responds
400); 404 when absent; otherwise overwrite all seven fields and save. -/
def putEmployee (id : String) (b : ReqBody) (s : Store) : Response × Store :=
  let errs := putValidation b
  if !errs.isEmpty then (⟨400, .errors errs⟩, s)
  else
    match dbFindById s id with
    | .error m => (⟨400, .message m⟩, s)
    | .ok none => (⟨404, .message "Employee not found"⟩, s)
    | .ok (some old) =>
      match dbSaveExisting s old b with
      | .ok es => (⟨200, .record es.1⟩, es.2)
      | .error m => (⟨400, .message m⟩, s)

/-- DELETE /employees/:id (app.js lines 129-138). -/
def deleteEmployee (id : String) (s : Store) : Response × Store :=
  match dbFindById s id with
  | .error m => (⟨500, .message m⟩, s)
  | .ok none => (⟨404, .message "Employee not found"⟩, s)
  | .ok (some e) =>
    match dbDeleteDoc s e with
    | .ok s2 => (⟨200, .message "Employee deleted"⟩, s2)
    | .error m => (⟨500, .message m⟩, s)

/-- GET /employees/search/:name (app.js lines 141-156): the term is used
as a case-insensitive regex over `emp_name`; zero matches give 404, and a
rejected query lands in the promise `catch`, which responds 500 with an
error-keyed body. -/
def searchEmployees (name : String) (s : Store) : Response :=
  match dbFindByNameRegex s name with
  | .ok es =>
    if es.length == 0 then ⟨404, .message "No employees found"⟩
    else ⟨200, .records es⟩
  | .error m => ⟨500, .errorMsg m⟩

/-- The empty store. -/
def emptyStore : Store := ⟨[], 0, none⟩

/-- The ECMAScript regular-expression metacharacters; a search term
containing none of them is matched literally by the regex engine. -/
def regexMetaChars : List Char :=
  ['.', '*', '+', '?', '^', '$', '(', ')', '[', ']', '|', '\\', '/'] ++
  [Char.ofNat 123, Char.ofNat 125]

/-- The search term contains no regex metacharacter. -/
def isLiteralPattern (p : String) : Bool :=
  p.toList.all (fun c => !(regexMetaChars.contains c))

/-- Spec-side definition, from the specification's words: case-insensitive
substring match against a name, not anchored — the term occurs at some
position of the name, compared case-insensitively. -/
def ciSubstring (term subject : String) : Bool :=
  (List.range (subject.toList.length + 1)).any
    (fun i =>
      (term.toList.map Char.toLower).isPrefixOf
        ((subject.toList.map Char.toLower).drop i))

/-- All seven request fields were submitted as JSON strings. -/
def stringFields (b : ReqBody) : Bool :=
  isStringV b.emp_name && isStringV b.emp_email && isStringV b.emp_salary &&
  isStringV b.experience && isStringV b.dept_code &&
  isStringV b.joining_date && isStringV b.secrete_code

/-- JSON-level equality of a submitted body and a returned record: each of
the seven submitted values equals the returned field, which the store
serializes as a JSON string. -/
def roundTripEq (b : ReqBody) (e : StoredEmployee) : Bool :=
  b.emp_name == some (.jstr e.emp_name) &&
  b.emp_email == some (.jstr e.emp_email) &&
  b.emp_salary == some (.jstr e.emp_salary) &&
  b.experience == some (.jstr e.experience) &&
  b.dept_code == some (.jstr e.dept_code) &&
  b.joining_date == some (.jstr e.joining_date) &&
  b.secrete_code == some (.jstr e.secrete_code)

/-- The document the specification's example create request persists. -/
def aliceDoc : StoredEmployee :=
  ⟨genId 0, "Alice Smith", "a@x.com", "50000", "3", "ENG", "2024-01-15", "abc"⟩

/-- A one-record store holding the example document, as left by the
example create request. -/
def aliceStore : Store := ⟨[aliceDoc], 1, none⟩

/-- A fully valid update body with a different name and department. -/
def updBody : ReqBody :=
  { exBody with
    emp_name := some (.jstr "Bob Jones")
    dept_code := some (.jstr "OPS") }

/-- A store whose backing database rejects every round trip. -/
def downStore : Store := ⟨[], 0, some "db down"⟩

/-- A one-record store for the search counterexample: the employee is
named "axc", which does not contain the term "a.c" as a substring but is
matched by it as a regex. -/
def axcStore : Store :=
  ⟨[⟨genId 0, "axc", "a@x.com", "1", "0", "D", "2024-01-15", "s"⟩], 1, none⟩

/-- The example body with every field submitted as a JSON string. -/
def strBody : ReqBody :=
  { exBody with experience := some (.jstr "3") }

/-! ### Helper lemmas about the validation component -/

theorem checkChain_filter_self (f : String) (v : Option JValue)
    (rs : List ((Option JValue → Bool) × String)) :
    (checkChain f v rs).filter (fun x => x.field == f) = checkChain f v rs := by
  induction rs with
  | nil => rfl
  | cons r rs ih =>
    simp only [checkChain, List.filterMap_cons] at ih ⊢
    cases hr : r.1 v <;> simp [hr, ih]

theorem checkChain_filter_ne (f g : String) (v : Option JValue)
    (rs : List ((Option JValue → Bool) × String)) (h : (f == g) = false) :
    (checkChain f v rs).filter (fun x => x.field == g) = [] := by
  induction rs with
  | nil => rfl
  | cons r rs ih =>
    simp only [checkChain, List.filterMap_cons] at ih ⊢
    cases hr : r.1 v <;> simp [hr, ih, h]

theorem filter_postValidation (b : ReqBody) (f : FieldId) :
    (postValidation b).filter (fun x => x.field == f.name) =
      checkChain f.name (b.get f) (chainRules f) := by
  cases f <;>
    simp [postValidation, FieldId.name, ReqBody.get, chainRules,
      List.filter_append, checkChain_filter_self, checkChain_filter_ne]

theorem checkChain_nil_iff (f : String) (v : Option JValue)
    (rs : List ((Option JValue → Bool) × String)) :
    checkChain f v rs = [] ↔ rs.all (fun r => r.1 v) = true := by
  induction rs with
  | nil => simp [checkChain]
  | cons r rs ih =>
    simp only [checkChain, List.filterMap_cons, List.all_cons] at ih ⊢
    cases hr : r.1 v <;> simp [hr, ih]

theorem postValidation_nil_iff (b : ReqBody) :
    postValidation b = [] ↔ allFieldsValid b = true := by
  simp only [postValidation, allFieldsValid, List.append_eq_nil,
    checkChain_nil_iff, List.all_cons, List.all_nil, Bool.and_eq_true,
    and_true]

/-- C8: the create and update endpoints validate with the same function:
for every request body, the POST rule array and the PUT rule array produce
exactly the same violation list. -/
theorem post_put_validation_eq (b : ReqBody) :
    postValidation b = putValidation b := rfl

/-- C1: validation checks the seven fields independently and accumulates
every violation: the violations reported under a field name depend only on
that field's value (no short-circuiting across chains); the list is empty
exactly when every rule of every chain passes; omitting any one field of
the valid example body yields a violation naming that field; experience =
-1 yields a violation naming experience; the fully valid example body
yields zero violations. -/
theorem validation_accumulates_all (b b' : ReqBody) (f : FieldId)
    (h : b.get f = b'.get f) :
    (postValidation b).filter (fun x => x.field == f.name) =
      (postValidation b').filter (fun x => x.field == f.name) ∧
    (∀ c : ReqBody, postValidation c = [] ↔ allFieldsValid c = true) ∧
    (∀ g : FieldId, (postValidation (exBody.set g none)).any
      (fun x => x.field == g.name) = true) ∧
    (postValidation { exBody with experience := some (.jnum (-1)) }).any
      (fun x => x.field == "experience") = true ∧
    postValidation exBody = [] := by
  refine ⟨?_, fun c => postValidation_nil_iff c, ?_, by decide, by decide⟩
  · rw [filter_postValidation, filter_postValidation, h]
  · intro g; cases g <;> decide

/-- Witness for C1 at concrete inputs: the bodies agree on the experience
field, so the violations filed under "experience" coincide. -/
theorem validation_accumulates_all_witness :
    exBody.get .experience = (exBody.set .emp_name none).get .experience ∧
    (postValidation exBody).filter (fun x => x.field == FieldId.experience.name) =
      (postValidation (exBody.set .emp_name none)).filter
        (fun x => x.field == FieldId.experience.name) :=
  ⟨by decide, (validation_accumulates_all exBody (exBody.set .emp_name none)
      .experience (by decide)).1⟩

/-! ### Helper lemmas about number formatting, casting and identifiers -/

theorem toList_mk (l : List Char) : (String.mk l).toList = l := rfl

theorem natDigitsCore_length (fuel : Nat) :
    ∀ (n : Nat) (acc : List Char),
      acc.length ≤ (natDigitsCore fuel n acc).length := by
  induction fuel with
  | zero => intro n acc; simp [natDigitsCore]
  | succ fuel ih =>
    intro n acc
    simp only [natDigitsCore]
    split
    · simp
    · exact Nat.le_trans (Nat.le_succ acc.length)
        (by simpa using ih (n / 10) (Char.ofNat (48 + n % 10) :: acc))

theorem natDigits_ne_nil (n : Nat) : natDigitsCore (n + 1) n [] ≠ [] := by
  simp only [natDigitsCore]
  split
  · simp
  · intro h
    have hl := natDigitsCore_length n (n / 10) [Char.ofNat (48 + n % 10)]
    rw [h] at hl
    simp at hl

theorem intToStr_ne_nil (n : Int) : (intToStr n).toList ≠ [] := by
  cases n with
  | ofNat m => simpa [intToStr, natToStr, toList_mk] using natDigits_ne_nil m
  | negSucc m => simp [intToStr, toList_mk]

theorem toList_ne_nil_of_isEmpty_false (s : String)
    (h : s.toList.isEmpty = false) : s.toList ≠ [] := by
  intro hnil
  rw [hnil] at h
  simp at h

theorem castField_some (v : Option JValue)
    (h : (coerceStr v).toList.isEmpty = false) :
    ∃ t, castField v = some t ∧ t.toList ≠ [] := by
  match v with
  | none => simp [coerceStr] at h
  | some .jnull => simp [coerceStr] at h
  | some (.jstr s) =>
    simp only [coerceStr] at h
    have hd : s.data.isEmpty = false := h
    cases hs : s.data with
    | nil => rw [hs] at hd; simp at hd
    | cons c cs =>
      refine ⟨s, by simp [castField, hs], ?_⟩
      show s.data ≠ []
      simp [hs]
  | some (.jnum k) => exact ⟨intToStr k, rfl, intToStr_ne_nil k⟩

theorem castField_ne_nil (v : Option JValue) (t : String)
    (h : castField v = some t) : t.toList ≠ [] := by
  match v with
  | none => simp [castField] at h
  | some .jnull => simp [castField] at h
  | some (.jstr s) =>
    cases hs : s.data with
    | nil => simp [castField, hs] at h
    | cons c cs =>
      simp only [castField, String.toList, hs, Option.some.injEq] at h
      subst h
      show s.data ≠ []
      simp [hs]
  | some (.jnum k) =>
    cases h
    exact intToStr_ne_nil k

theorem isIntMin0Str_nonempty (s : String) (h : isIntMin0Str s = true) :
    s.toList.isEmpty = false := by
  cases hs : s.toList with
  | nil => unfold isIntMin0Str at h; rw [hs] at h; simp at h
  | cons c cs => simp [hs]

theorem isISO8601Str_nonempty (s : String) (h : isISO8601Str s = true) :
    s.toList.isEmpty = false := by
  cases hs : s.toList with
  | nil => unfold isISO8601Str at h; rw [hs] at h; simp at h
  | cons c cs => simp [hs]

theorem castEmployee_of_valid (id : String) (b : ReqBody)
    (h : allFieldsValid b = true) :
    ∃ e, castEmployee id b = some e ∧ e.id = id := by
  simp only [allFieldsValid, Bool.and_eq_true] at h
  have h1 : notEmptyV b.emp_name = true := by tauto
  have h2 : notEmptyV b.emp_email = true := by tauto
  have h3 : notEmptyV b.emp_salary = true := by tauto
  have h4 : isIntMin0V b.experience = true := by tauto
  have h5 : notEmptyV b.dept_code = true := by tauto
  have h6 : isISO8601V b.joining_date = true := by tauto
  have h7 : notEmptyV b.secrete_code = true := by tauto
  simp only [notEmptyV, Bool.not_eq_true'] at h1 h2 h3 h5 h7
  obtain ⟨t1, hc1, _⟩ := castField_some b.emp_name h1
  obtain ⟨t2, hc2, _⟩ := castField_some b.emp_email h2
  obtain ⟨t3, hc3, _⟩ := castField_some b.emp_salary h3
  obtain ⟨t4, hc4, _⟩ :=
    castField_some b.experience (isIntMin0Str_nonempty _ h4)
  obtain ⟨t5, hc5, _⟩ := castField_some b.dept_code h5
  obtain ⟨t6, hc6, _⟩ :=
    castField_some b.joining_date (isISO8601Str_nonempty _ h6)
  obtain ⟨t7, hc7, _⟩ := castField_some b.secrete_code h7
  exact ⟨⟨id, t1, t2, t3, t4, t5, t6, t7⟩,
    by simp [castEmployee, hc1, hc2, hc3, hc4, hc5, hc6, hc7], rfl⟩

theorem castEmployee_inv (id : String) (b : ReqBody) (e : StoredEmployee)
    (h : castEmployee id b = some e) :
    e.id = id ∧
    castField b.emp_name = some e.emp_name ∧
    castField b.emp_email = some e.emp_email ∧
    castField b.emp_salary = some e.emp_salary ∧
    castField b.experience = some e.experience ∧
    castField b.dept_code = some e.dept_code ∧
    castField b.joining_date = some e.joining_date ∧
    castField b.secrete_code = some e.secrete_code := by
  unfold castEmployee at h
  split at h
  · cases h
    simp_all
  · simp at h

theorem hexChar_isHex (d : Nat) (h : d < 16) :
    isHexDigitChar (hexChar d) = true := by
  interval_cases d <;> decide

theorem genId_valid (n : Nat) : isValidObjectId (genId n) = true := by
  unfold isValidObjectId genId
  simp only [toList_mk, Bool.and_eq_true, beq_iff_eq, List.all_eq_true]
  constructor
  · simp
  · intro c hc
    simp only [List.mem_map, List.mem_range] at hc
    obtain ⟨i, _, rfl⟩ := hc
    exact hexChar_isHex _ (Nat.mod_lt _ (by norm_num))

/-- C9: atomicity of validation failure: whenever POST /employees or
PUT /employees/:id responds with a violation list, the response status is
400 and the store state is exactly what it was before the request — the
handlers return before any storage operation. -/
theorem validation_failure_atomic (b : ReqBody) (id : String) (s : Store)
    (errs : List Violation) :
    ((postEmployees b s).1.body = .errors errs →
      (postEmployees b s).2 = s ∧ (postEmployees b s).1.status = 400) ∧
    ((putEmployee id b s).1.body = .errors errs →
      (putEmployee id b s).2 = s ∧ (putEmployee id b s).1.status = 400) := by
  constructor
  · intro h
    cases hv : (postValidation b).isEmpty with
    | false => simp [postEmployees, hv]
    | true =>
      cases hs : dbSaveNew s b with
      | ok es => simp [postEmployees, hv, hs] at h
      | error m => simp [postEmployees, hv, hs] at h
  · intro h
    cases hv : (putValidation b).isEmpty with
    | false => simp [putEmployee, hv]
    | true =>
      cases hfind : dbFindById s id with
      | error m => simp [putEmployee, hv, hfind] at h
      | ok o =>
        cases o with
        | none => simp [putEmployee, hv, hfind] at h
        | some old =>
          cases hs : dbSaveExisting s old b with
          | ok es => simp [putEmployee, hv, hfind, hs] at h
          | error m => simp [putEmployee, hv, hfind, hs] at h

/-- Witness for C9: the example body without its name field fails
validation; the create handler responds with the violation array and
leaves the empty store empty. -/
theorem validation_failure_atomic_witness :
    (postEmployees (exBody.set .emp_name none) emptyStore).1.body =
      .errors (postValidation (exBody.set .emp_name none)) ∧
    (postEmployees (exBody.set .emp_name none) emptyStore).2 = emptyStore :=
  ⟨by decide,
   ((validation_failure_atomic (exBody.set .emp_name none) (genId 0)
      emptyStore (postValidation (exBody.set .emp_name none))).1
      (by decide)).1⟩

/-- C10: the schema declares all seven fields as required strings: a
successfully saved document joins the store, a numeric `experience` or
`emp_salary` value is stored as its decimal string form, and every one of
the seven stored fields is a non-empty string (the `required`
validators). -/
theorem schema_stores_strings (b : ReqBody) (s s2 : Store)
    (e : StoredEmployee) (n m : Int)
    (hsave : dbSaveNew s b = .ok (e, s2)) :
    e ∈ s2.docs ∧
    (b.experience = some (.jnum n) → e.experience = intToStr n) ∧
    (b.emp_salary = some (.jnum m) → e.emp_salary = intToStr m) ∧
    e.emp_name.toList ≠ [] ∧ e.emp_email.toList ≠ [] ∧
    e.emp_salary.toList ≠ [] ∧ e.experience.toList ≠ [] ∧
    e.dept_code.toList ≠ [] ∧ e.joining_date.toList ≠ [] ∧
    e.secrete_code.toList ≠ [] := by
  unfold dbSaveNew at hsave
  cases hc : castEmployee (genId s.nextId) b with
  | none => rw [hc] at hsave; simp at hsave
  | some e2 =>
    rw [hc] at hsave
    cases hf : s.failure with
    | some m2 => rw [hf] at hsave; simp at hsave
    | none =>
      rw [hf] at hsave
      simp only [Except.ok.injEq, Prod.mk.injEq] at hsave
      obtain ⟨rfl, rfl⟩ := hsave
      obtain ⟨hid, h1, h2, h3, h4, h5, h6, h7⟩ := castEmployee_inv _ _ _ hc
      refine ⟨by simp, ?_, ?_, castField_ne_nil _ _ h1,
        castField_ne_nil _ _ h2, castField_ne_nil _ _ h3,
        castField_ne_nil _ _ h4, castField_ne_nil _ _ h5,
        castField_ne_nil _ _ h6, castField_ne_nil _ _ h7⟩
      · intro hb
        rw [hb] at h4
        simp only [castField, Option.some.injEq] at h4
        exact h4.symm
      · intro hb
        rw [hb] at h3
        simp only [castField, Option.some.injEq] at h3
        exact h3.symm

/-- Witness for C10: saving the example body (numeric experience 3 and
numeric salary 50000) stores the strings "3" and "50000". -/
theorem schema_stores_strings_witness :
    dbSaveNew emptyStore
      { exBody with emp_salary := some (.jnum 50000) } =
      .ok (aliceDoc, aliceStore) ∧
    aliceDoc.experience = intToStr 3 ∧ aliceDoc.emp_salary = intToStr 50000 := by
  have h := schema_stores_strings
    { exBody with emp_salary := some (.jnum 50000) }
    emptyStore aliceStore aliceDoc 3 50000 (by rfl)
  exact ⟨by rfl, h.2.1 rfl, h.2.2.1 rfl⟩

/-- C6: a syntactically malformed `:id` makes GET /employees/:id respond
500 with the cast-error text, never 404; and a 404 from this endpoint
happens only for a well-formed identifier, a reachable store, and a lookup
that found no record. -/
theorem malformed_id_not_notfound (id : String) (s : Store) :
    (isValidObjectId id = false →
      getEmployeeById id s = ⟨500, .message (castErrMsg id)⟩) ∧
    ((getEmployeeById id s).status = 404 →
      isValidObjectId id = true ∧ s.failure = none ∧
      s.docs.find? (fun d => d.id == id) = none) := by
  constructor
  · intro h
    simp [getEmployeeById, dbFindById, h]
  · intro h
    cases hvalid : isValidObjectId id with
    | false => simp [getEmployeeById, dbFindById, hvalid] at h
    | true =>
      cases hf : s.failure with
      | some m => simp [getEmployeeById, dbFindById, hvalid, hf] at h
      | none =>
        cases hfind : s.docs.find? (fun d => d.id == id) with
        | some e => simp [getEmployeeById, dbFindById, hvalid, hf, hfind] at h
        | none => exact ⟨rfl, rfl, rfl⟩

/-- Witness for C6: "zz" is not a valid ObjectId and the endpoint
responds 500 with the cast-error message. -/
theorem malformed_id_not_notfound_witness :
    isValidObjectId "zz" = false ∧
    getEmployeeById "zz" emptyStore = ⟨500, .message (castErrMsg "zz")⟩ :=
  ⟨by decide, (malformed_id_not_notfound "zz" emptyStore).1 (by decide)⟩

/-- C7 (amended): with the backing store failing, the list, get-by-id and
delete endpoints respond 500 with a message-keyed body, create and update
report the save error as 400 with a message-keyed body, and the search
endpoint's promise catch responds 500 with an error-keyed body. -/
theorem storage_error_mapping (b : ReqBody) (id nm m : String) (s : Store)
    (hf : s.failure = some m) (hid : isValidObjectId id = true)
    (hv : postValidation b = []) :
    getAllEmployees s = ⟨500, .message m⟩ ∧
    getEmployeeById id s = ⟨500, .message m⟩ ∧
    deleteEmployee id s = (⟨500, .message m⟩, s) ∧
    searchEmployees nm s = ⟨500, .errorMsg m⟩ ∧
    postEmployees b s = (⟨400, .message m⟩, s) ∧
    putEmployee id b s = (⟨400, .message m⟩, s) := by
  have hv2 : putValidation b = [] := hv
  obtain ⟨e, he, -⟩ :=
    castEmployee_of_valid (genId s.nextId) b ((postValidation_nil_iff b).1 hv)
  refine ⟨?_, ?_, ?_, ?_, ?_, ?_⟩
  · simp [getAllEmployees, dbFindAll, hf]
  · simp [getEmployeeById, dbFindById, hid, hf]
  · simp [deleteEmployee, dbFindById, hid, hf]
  · simp [searchEmployees, dbFindByNameRegex, hf]
  · simp [postEmployees, hv, dbSaveNew, he, hf]
  · simp [putEmployee, hv2, dbFindById, hid, hf]

/-- Counterexample for C7 as stated: on the search path a storage error is
serialized under the key "error", not under the key "message". -/
theorem search_error_key_counterexample :
    searchEmployees "a" downStore = ⟨500, .errorMsg "db down"⟩ ∧
    RespBody.errorMsg "db down" ≠ RespBody.message "db down" := by decide

/-- Witness for C7 at a concrete failing store. -/
theorem storage_error_mapping_witness :
    downStore.failure = some "db down" ∧
    getAllEmployees downStore = ⟨500, .message "db down"⟩ ∧
    postEmployees exBody downStore = (⟨400, .message "db down"⟩, downStore) := by
  have h := storage_error_mapping exBody (genId 0) "a" "db down" downStore
    rfl (by decide) (by decide)
  exact ⟨rfl, h.1, h.2.2.2.2.1⟩

/-! ### Lemmas for the create-then-read round trip -/

theorem isStringV_inv (v : Option JValue) (h : isStringV v = true) :
    ∃ s, v = some (.jstr s) := by
  match v with
  | some (.jstr s) => exact ⟨s, rfl⟩
  | some (.jnum n) => simp [isStringV] at h
  | some .jnull => simp [isStringV] at h
  | none => simp [isStringV] at h

theorem castField_jstr (str t : String)
    (h : castField (some (.jstr str)) = some t) : str = t := by
  cases hs : str.data with
  | nil => simp [castField, hs] at h
  | cons c cs =>
    simp only [castField, String.toList, hs, Option.some.injEq] at h
    exact h

/-- C2 (amended): creating an employee from a fully valid body responds
201 with the persisted record, and reading it back by the assigned
identifier returns that same record; each stored field is the schema cast
of the submitted value, so when every field was submitted as a JSON string
the read-back record equals the submitted input in all seven fields (a
numeric submission is read back as its decimal string instead). -/
theorem create_read_roundtrip (b : ReqBody) (s : Store)
    (hv : postValidation b = []) (hf : s.failure = none)
    (hfresh : ∀ d ∈ s.docs, (d.id == genId s.nextId) = false) :
    ∃ e, castEmployee (genId s.nextId) b = some e ∧
      (postEmployees b s).1 = ⟨201, .record e⟩ ∧
      getEmployeeById (genId s.nextId) (postEmployees b s).2 =
        ⟨200, .record e⟩ ∧
      (stringFields b = true → roundTripEq b e = true) := by
  obtain ⟨e, he, heid⟩ :=
    castEmployee_of_valid (genId s.nextId) b ((postValidation_nil_iff b).1 hv)
  have hs2 : (postEmployees b s).2 =
      { s with docs := s.docs ++ [e], nextId := s.nextId + 1 } := by
    simp [postEmployees, hv, dbSaveNew, he, hf]
  refine ⟨e, he, ?_, ?_, ?_⟩
  · simp [postEmployees, hv, dbSaveNew, he, hf]
  · rw [hs2]
    have hnone : s.docs.find? (fun d => d.id == genId s.nextId) = none :=
      List.find?_eq_none.mpr (fun x hx => by simp [hfresh x hx])
    simp [getEmployeeById, dbFindById, genId_valid, hf,
      List.find?_append, hnone, List.find?_cons, heid]
  · intro hsf
    simp only [stringFields, Bool.and_eq_true] at hsf
    obtain ⟨hid2, h1, h2, h3, h4, h5, h6, h7⟩ := castEmployee_inv _ _ _ he
    have g1 : isStringV b.emp_name = true := by tauto
    have g2 : isStringV b.emp_email = true := by tauto
    have g3 : isStringV b.emp_salary = true := by tauto
    have g4 : isStringV b.experience = true := by tauto
    have g5 : isStringV b.dept_code = true := by tauto
    have g6 : isStringV b.joining_date = true := by tauto
    have g7 : isStringV b.secrete_code = true := by tauto
    obtain ⟨s1, hb1⟩ := isStringV_inv _ g1
    obtain ⟨s2, hb2⟩ := isStringV_inv _ g2
    obtain ⟨s3, hb3⟩ := isStringV_inv _ g3
    obtain ⟨s4, hb4⟩ := isStringV_inv _ g4
    obtain ⟨s5, hb5⟩ := isStringV_inv _ g5
    obtain ⟨s6, hb6⟩ := isStringV_inv _ g6
    obtain ⟨s7, hb7⟩ := isStringV_inv _ g7
    rw [hb1] at h1; rw [hb2] at h2; rw [hb3] at h3; rw [hb4] at h4
    rw [hb5] at h5; rw [hb6] at h6; rw [hb7] at h7
    simp [roundTripEq, hb1, hb2, hb3, hb4, hb5, hb6, hb7,
      castField_jstr _ _ h1, castField_jstr _ _ h2, castField_jstr _ _ h3,
      castField_jstr _ _ h4, castField_jstr _ _ h5, castField_jstr _ _ h6,
      castField_jstr _ _ h7]

/-- Counterexample for C2 as stated: the example body is fully valid but
submits experience as the JSON number 3; the round trip returns the
record with experience stored as the string "3", which is not equal to
the submitted value, so the read-back record is not equal to the
submitted input in all seven fields. -/
theorem numeric_roundtrip_counterexample :
    postValidation exBody = [] ∧
    (postEmployees exBody emptyStore).1 = ⟨201, .record aliceDoc⟩ ∧
    getEmployeeById (genId 0) (postEmployees exBody emptyStore).2 =
      ⟨200, .record aliceDoc⟩ ∧
    exBody.experience = some (.jnum 3) ∧
    aliceDoc.experience = "3" ∧
    roundTripEq exBody aliceDoc = false := by decide

/-- Witness for C2 at the all-string example body over the empty store. -/
theorem create_read_roundtrip_witness :
    postValidation strBody = [] ∧
    (∃ e, castEmployee (genId 0) strBody = some e ∧
      (postEmployees strBody emptyStore).1 = ⟨201, .record e⟩ ∧
      getEmployeeById (genId 0) (postEmployees strBody emptyStore).2 =
        ⟨200, .record e⟩ ∧
      (stringFields strBody = true → roundTripEq strBody e = true)) :=
  ⟨by decide,
   create_read_roundtrip strBody emptyStore (by decide) rfl (by simp [emptyStore])⟩

/-! ### Lemmas for update and delete -/

theorem dbFindById_ok_inv (s : Store) (id : String)
    (o : Option StoredEmployee) (h : dbFindById s id = .ok o) :
    isValidObjectId id = true ∧ s.failure = none ∧
    s.docs.find? (fun d => d.id == id) = o := by
  cases hx : isValidObjectId id with
  | false => unfold dbFindById at h; rw [hx] at h; simp at h
  | true =>
    cases hfx : s.failure with
    | some m => unfold dbFindById at h; rw [hx, hfx] at h; simp at h
    | none =>
      unfold dbFindById at h
      rw [hx, hfx] at h
      simp at h
      exact ⟨rfl, rfl, h⟩

theorem getEmployeeById_found (id : String) (s : Store) (e : StoredEmployee)
    (hvalid : isValidObjectId id = true) (hf : s.failure = none)
    (hfind : s.docs.find? (fun d => d.id == id) = some e) :
    getEmployeeById id s = ⟨200, .record e⟩ := by
  unfold getEmployeeById dbFindById
  rw [hvalid, hf, hfind]
  simp

theorem getEmployeeById_notFound (id : String) (s : Store)
    (hvalid : isValidObjectId id = true) (hf : s.failure = none)
    (hfind : s.docs.find? (fun d => d.id == id) = none) :
    getEmployeeById id s = ⟨404, .message "Employee not found"⟩ := by
  unfold getEmployeeById dbFindById
  rw [hvalid, hf, hfind]
  simp

theorem find?_replace (id : String) (e old : StoredEmployee)
    (he : e.id = old.id) :
    ∀ l : List StoredEmployee,
      l.find? (fun d => d.id == id) = some old →
      (l.map (fun d => if d.id == old.id then e else d)).find?
        (fun d => d.id == id) = some e := by
  intro l
  induction l with
  | nil => intro h; simp at h
  | cons a l ih =>
    intro h
    simp only [List.find?_cons] at h
    cases ha : (a.id == id) with
    | true =>
      rw [ha] at h
      obtain rfl : a = old := by simpa using h
      have h1 : (a.id == a.id) = true := by simp
      have he2 : (e.id == id) = true := by rw [he]; exact ha
      simp only [List.map_cons, h1, if_true, List.find?_cons, he2]
    | false =>
      rw [ha] at h
      have h' : List.find? (fun d => d.id == id) l = some old := h
      have hold2 : (old.id == id) = true := by
        simpa using List.find?_some h'
      have hne : (a.id == old.id) = false := by
        cases hax : (a.id == old.id) with
        | false => rfl
        | true =>
          exfalso
          have h1 : a.id = old.id := by simpa using hax
          have h2 : old.id = id := by simpa using hold2
          rw [h1, h2] at ha
          simp at ha
      simp only [List.map_cons, hne, Bool.false_eq_true, if_false,
        List.find?_cons, ha]
      exact ih h'

/-- C4: for a valid body, PUT /employees/:id on an existing record
overwrites all seven fields with the casts of the new values (the new
document is computed from the request body alone), keeps the identifier,
responds 200 with the updated record which a subsequent read returns; and
responds 404 when no record with that id exists. -/
theorem put_overwrites_all (id : String) (b : ReqBody) (s : Store)
    (old : StoredEmployee) (hv : putValidation b = [])
    (hf : s.failure = none) :
    (dbFindById s id = .ok (some old) →
      ∃ e, castEmployee old.id b = some e ∧ e.id = old.id ∧
        (putEmployee id b s).1 = ⟨200, .record e⟩ ∧
        getEmployeeById id (putEmployee id b s).2 = ⟨200, .record e⟩) ∧
    (dbFindById s id = .ok none →
      putEmployee id b s = (⟨404, .message "Employee not found"⟩, s)) := by
  have hv0 : postValidation b = [] := hv
  constructor
  · intro hfind
    obtain ⟨hvalid, -, hfind2⟩ := dbFindById_ok_inv s id _ hfind
    obtain ⟨e, he, heid⟩ :=
      castEmployee_of_valid old.id b ((postValidation_nil_iff b).1 hv0)
    have hput : putEmployee id b s =
        (⟨200, .record e⟩,
         { s with docs := s.docs.map (fun d => if d.id == old.id then e else d) }) := by
      simp [putEmployee, hv, dbFindById, hvalid, hf, hfind2,
        dbSaveExisting, he]
    have hmfind := find?_replace id e old heid s.docs hfind2
    refine ⟨e, he, heid, by rw [hput], ?_⟩
    rw [hput]
    exact getEmployeeById_found id _ e hvalid hf hmfind
  · intro hfind
    obtain ⟨hvalid, -, hfind2⟩ := dbFindById_ok_inv s id _ hfind
    simp [putEmployee, hv, dbFindById, hvalid, hf, hfind2]

/-- Witness for C4: updating the example record with a new name and
department succeeds with status 200. -/
theorem put_overwrites_all_witness :
    putValidation updBody = [] ∧
    (putEmployee (genId 0) updBody aliceStore).1.status = 200 := by
  obtain ⟨e, he, heid, hresp, hget⟩ :=
    (put_overwrites_all (genId 0) updBody aliceStore aliceDoc
      (by decide) rfl).1 (by rfl)
  exact ⟨by decide, by rw [hresp]⟩

theorem find?_eraseP_none (id : String) :
    ∀ l : List StoredEmployee, l.Pairwise (fun x y => x.id ≠ y.id) →
      ∀ e, l.find? (fun d => d.id == id) = some e →
      (l.eraseP (fun d => d.id == e.id)).find? (fun d => d.id == id) = none := by
  intro l
  induction l with
  | nil => intro _ e h; simp at h
  | cons a l ih =>
    intro hp e h
    obtain ⟨hhead, htail⟩ := List.pairwise_cons.mp hp
    simp only [List.find?_cons] at h
    cases ha : (a.id == id) with
    | true =>
      rw [ha] at h
      obtain rfl : a = e := by simpa using h
      have h1 : (a.id == a.id) = true := by simp
      simp only [List.eraseP_cons, h1, cond_true]
      apply List.find?_eq_none.mpr
      intro x hx
      have hne := hhead x hx
      have haid : a.id = id := by simpa using ha
      intro hxx
      have hxid : x.id = id := by simpa using hxx
      exact hne (haid.trans hxid.symm)
    | false =>
      rw [ha] at h
      have h' : List.find? (fun d => d.id == id) l = some e := h
      have he_id : (e.id == id) = true := by
        simpa using List.find?_some h'
      have hane : (a.id == e.id) = false := by
        cases hax : (a.id == e.id) with
        | false => rfl
        | true =>
          exfalso
          have h1 : a.id = e.id := by simpa using hax
          have h2 : e.id = id := by simpa using he_id
          rw [h1, h2] at ha
          simp at ha
      simp only [List.eraseP_cons, hane, cond_false, List.find?_cons, ha]
      exact ih htail e h'

theorem mem_eraseP_of_not (p : StoredEmployee → Bool) :
    ∀ (l : List StoredEmployee) (d : StoredEmployee), d ∈ l → p d = false →
      d ∈ l.eraseP p := by
  intro l
  induction l with
  | nil => intro d hd; simp at hd
  | cons a l ih =>
    intro d hd hpd
    cases hpa : p a with
    | true =>
      simp only [List.eraseP_cons, hpa, cond_true]
      rcases List.mem_cons.mp hd with rfl | hdl
      · rw [hpd] at hpa; cases hpa
      · exact hdl
    | false =>
      simp only [List.eraseP_cons, hpa, cond_false]
      rcases List.mem_cons.mp hd with rfl | hdl
      · exact List.mem_cons_self _ _
      · exact List.mem_cons_of_mem _ (ih d hdl hpd)

/-- C5: DELETE /employees/:id on an existing record responds 200 with the
confirmation message and removes exactly that record — a subsequent read
of the same identifier returns 404 and every record with a different
identifier is still stored; DELETE of an absent id responds 404. -/
theorem delete_removes_record (id : String) (s : Store) (e : StoredEmployee)
    (hf : s.failure = none)
    (huniq : s.docs.Pairwise (fun x y => x.id ≠ y.id)) :
    (dbFindById s id = .ok (some e) →
      (deleteEmployee id s).1 = ⟨200, .message "Employee deleted"⟩ ∧
      getEmployeeById id (deleteEmployee id s).2 =
        ⟨404, .message "Employee not found"⟩ ∧
      ∀ d ∈ s.docs, d.id ≠ id → d ∈ (deleteEmployee id s).2.docs) ∧
    (dbFindById s id = .ok none →
      deleteEmployee id s = (⟨404, .message "Employee not found"⟩, s)) := by
  constructor
  · intro hfind
    obtain ⟨hvalid, -, hfind2⟩ := dbFindById_ok_inv s id _ hfind
    have hdel : deleteEmployee id s =
        (⟨200, .message "Employee deleted"⟩,
         { s with docs := s.docs.eraseP (fun d => d.id == e.id) }) := by
      simp [deleteEmployee, dbFindById, hvalid, hf, hfind2, dbDeleteDoc]
    have hnone := find?_eraseP_none id s.docs huniq e hfind2
    refine ⟨by rw [hdel], ?_, ?_⟩
    · rw [hdel]
      exact getEmployeeById_notFound id _ hvalid hf hnone
    · intro d hd hne
      rw [hdel]
      apply mem_eraseP_of_not _ _ _ hd
      have he_id : e.id = id := by simpa using List.find?_some hfind2
      rw [he_id]
      simp [hne]
  · intro hfind
    obtain ⟨hvalid, -, hfind2⟩ := dbFindById_ok_inv s id _ hfind
    simp [deleteEmployee, dbFindById, hvalid, hf, hfind2]

/-- Witness for C5: deleting the example record responds 200 and a
subsequent read of the identifier responds 404. -/
theorem delete_removes_record_witness :
    (deleteEmployee (genId 0) aliceStore).1 =
      ⟨200, .message "Employee deleted"⟩ ∧
    getEmployeeById (genId 0) (deleteEmployee (genId 0) aliceStore).2 =
      ⟨404, .message "Employee not found"⟩ := by
  obtain ⟨h1, h2, h3⟩ :=
    (delete_removes_record (genId 0) aliceStore aliceDoc rfl
      (by simp [aliceStore])).1 (by rfl)
  exact ⟨h1, h2⟩

/-! ### Lemmas for the search endpoint -/

theorem patMatchesAt_literal :
    ∀ p : List Char, (∀ c ∈ p, regexMetaChars.contains c = false) →
      ∀ s : List Char,
        patMatchesAt p s = (p.map Char.toLower).isPrefixOf (s.map Char.toLower) := by
  intro p
  induction p with
  | nil => intro _ s; simp [patMatchesAt, List.isPrefixOf]
  | cons pc pr ih =>
    intro hmeta s
    cases s with
    | nil => simp [patMatchesAt, List.isPrefixOf]
    | cons sc sr =>
      have hpc : (pc == '.') = false := by
        have hc := hmeta pc (List.mem_cons_self _ _)
        cases hbe : (pc == '.') with
        | false => rfl
        | true =>
          exfalso
          have hpd : pc = '.' := by simpa using hbe
          rw [hpd] at hc
          simp [regexMetaChars] at hc
      simp only [patMatchesAt, List.map_cons, List.isPrefixOf, hpc,
        Bool.false_or]
      rw [ih (fun c hc => hmeta c (List.mem_cons_of_mem _ hc)) sr]

theorem regexILike_literal (term subject : String)
    (hlit : isLiteralPattern term = true) :
    regexILike term subject = ciSubstring term subject := by
  unfold regexILike ciSubstring
  have hmeta : ∀ c ∈ term.toList, regexMetaChars.contains c = false := by
    intro c hc
    have hx := List.all_eq_true.mp hlit c hc
    simpa using hx
  have hpt : ∀ i : Nat, patMatchesAt term.toList (subject.toList.drop i) =
      (term.toList.map Char.toLower).isPrefixOf
        ((subject.toList.map Char.toLower).drop i) := by
    intro i
    rw [patMatchesAt_literal term.toList hmeta, List.map_drop]
  simp only [hpt]

/-- C3 (amended): for a search term free of regex metacharacters, GET
/employees/search/:name returns exactly the stored records whose emp_name
contains the term as a case-insensitive substring (anywhere in the name),
and responds 404 "No employees found" when no record matches; a term with
metacharacters is instead interpreted as a regular expression. -/
theorem search_matches_substring (term : String) (s : Store)
    (hlit : isLiteralPattern term = true) (hf : s.failure = none) :
    searchEmployees term s =
      (if (s.docs.filter (fun d => ciSubstring term d.emp_name)).length == 0
       then ⟨404, .message "No employees found"⟩
       else ⟨200,
         .records (s.docs.filter (fun d => ciSubstring term d.emp_name))⟩) := by
  have hfilter : s.docs.filter (fun d => regexILike term d.emp_name) =
      s.docs.filter (fun d => ciSubstring term d.emp_name) := by
    apply List.filter_congr
    intro d _
    exact regexILike_literal term d.emp_name hlit
  simp only [searchEmployees, dbFindByNameRegex, hf, hfilter]

/-- Counterexample for C3 as stated: the term "a.c" returns the employee
named "axc" (the dot matches any character under the regex
interpretation), although "axc" does not contain "a.c" as a
case-insensitive substring. -/
theorem search_regex_counterexample :
    searchEmployees "a.c" axcStore =
      ⟨200, .records
        [⟨genId 0, "axc", "a@x.com", "1", "0", "D", "2024-01-15", "s"⟩]⟩ ∧
    ciSubstring "a.c" "axc" = false := by decide

/-- Witness for C3: the literal term "ice" matches the record named
"Alice Smith" as a case-insensitive substring. -/
theorem search_matches_substring_witness :
    isLiteralPattern "ice" = true ∧
    searchEmployees "ice" aliceStore =
      (if (aliceStore.docs.filter
            (fun d => ciSubstring "ice" d.emp_name)).length == 0
       then ⟨404, .message "No employees found"⟩
       else ⟨200, .records (aliceStore.docs.filter
         (fun d => ciSubstring "ice" d.emp_name))⟩) :=
  ⟨by decide, search_matches_substring "ice" aliceStore (by decide) rfl⟩
